import Mathlib

/-!
Verification development for the fork-join core (`src/join.rs`) of a
work-stealing runtime.

The file shallowly embeds the `join` function of `src/join.rs`:
closures are represented by their outcomes (`Except P R`, where `Except.error`
stands for a panic with payload in `P`), and the interference of other worker
threads is represented by a `Sched` value: `stealAt = some k` means a thief has
removed job B from the local deque by iteration `k` of the drain loop, and
`setAt = some k` means B's latch is observed set from iteration `k` on.
Jobs pushed on top of B (for example by nested operations inside closure A)
are the list `above`, with the top of the deque at the head.

The collaborating components that live outside `src/` (the latch, the
work-stealing deque, `thread_pool::in_worker` and `WorkerThread::wait_until`)
are modelled from the specification; each such definition says so in its
doc comment.
-/

namespace Rayon

/-- A job reference: an identity-comparable handle (`JobRef == JobRef` in the
source compares identity; we model identities as naturals). -/
abbrev JobRef := Nat

/-- Log events emitted by the `log!` macro inside `join` (src/join.rs lines
16, 42, 46, 52). -/
inductive Event where
  | joined : Nat → Event
  | poppedRhs : Nat → Event
  | poppedJob : Nat → Event
  | lostJob : Nat → Event
deriving DecidableEq

/-- Scheduling-relevant operations performed by `join` on its worker thread:
pushing a job reference, popping the deque (with the observed outcome),
executing a popped foreign job inline, running job B inline, and blocking in
`wait_until` on B's latch. -/
inductive Op where
  | push : JobRef → Op
  | pop : Option JobRef → Op
  | exec : JobRef → Op
  | runInlineB : Op
  | waitUntil : Op
deriving DecidableEq

/-- Which source path produced the pair returned by `join`:
`panicA` is the `join_recover_from_panic` path (line 28),
`foundB` is the `run_inline` path (line 43),
`intoResult` is the `into_result` path (line 59). -/
inductive BPath where
  | panicA : BPath
  | foundB : BPath
  | intoResult : BPath
deriving DecidableEq

/-- The interference of other workers during one `join` call, as observed by
the owner thread: `stealAt = some k` means job B has been removed from the
local deque by a thief before iteration `k` of the drain loop reaches its pop;
`setAt = some k` means B's latch probes true from iteration `k` on. -/
structure Sched where
  stealAt : Option Nat
  setAt : Option Nat
deriving DecidableEq

/-- The schedule in which no other worker ever steals job B (and hence nobody
else ever sets its latch). -/
def noStealSched : Sched := { stealAt := none, setAt := none }

/-- Whether B's latch probes true at iteration `i` of the drain loop. -/
def schedLatch (sch : Sched) (i : Nat) : Bool :=
  match sch.setAt with
  | some k => decide (k ≤ i)
  | none => false

/-- Whether job B is still present in the local deque at iteration `i` of the
drain loop (thieves only ever remove B from the owner's frame in this model;
B sits below all jobs pushed after it). -/
def bPresentAt (sch : Sched) (i : Nat) : Bool :=
  match sch.stealAt with
  | some k => decide (i < k)
  | none => true

/-- The observable result of one `join` execution: the returned pair or the
re-raised panic (`outcome`), which source path produced B's value (`path`),
whether the drain loop was left through the empty-deque `break` (line 55,
`stolenBreak`), how many `pop` calls the drain loop made (`pops`), the state
of B's latch when `join` returns (`latchEnd`), the emitted log events, and
the trace of scheduling operations. -/
structure JoinOut (P RA RB : Type) where
  outcome : Except P (RA × RB)
  path : BPath
  stolenBreak : Bool
  pops : Nat
  latchEnd : Bool
  events : List Event
  ops : List Op

/-- Pairing `result_a` with job B's outcome: a panic stored in B is re-raised
(both `run_inline` on the local path and `into_result` re-raise it; see
src/join.rs lines 43 and 59 and the job component's contract). -/
def pairB {P RA RB : Type} (va : RA) (ob : Except P RB) : Except P (RA × RB) :=
  match ob with
  | Except.ok vb => Except.ok (va, vb)
  | Except.error p => Except.error p

/-- Drain-loop exit through the `while` condition: B's latch probes true, no
pop is performed, the result is retrieved by `into_result` at line 59. -/
def latchExitOut {P RA RB : Type} (va : RA) (ob : Except P RB) : JoinOut P RA RB :=
  { outcome := pairB va ob, path := BPath.intoResult, stolenBreak := false,
    pops := 0, latchEnd := true, events := [], ops := [] }

/-- Drain-loop exit at line 43: the pop returned B's own reference, which is
run inline and the pair returned immediately. -/
def foundBOut {P RA RB : Type} (w : Nat) (j : JobRef) (va : RA) (ob : Except P RB) :
    JoinOut P RA RB :=
  { outcome := pairB va ob, path := BPath.foundB, stolenBreak := false,
    pops := 1, latchEnd := true, events := [Event.poppedRhs w],
    ops := [Op.pop (some j), Op.runInlineB] }

/-- Drain-loop exit at lines 52-55: the pop found the deque empty, so B was
stolen; the owner blocks in `wait_until` on B's latch and breaks out, and the
result is then retrieved by `into_result` at line 59. -/
def stolenOut {P RA RB : Type} (w : Nat) (va : RA) (ob : Except P RB) : JoinOut P RA RB :=
  { outcome := pairB va ob, path := BPath.intoResult, stolenBreak := true,
    pops := 1, latchEnd := true, events := [Event.lostJob w],
    ops := [Op.pop none, Op.waitUntil] }

/-- One continuing drain-loop iteration (lines 45-48): the pop returned a
foreign job `j`, which is executed inline, and the loop continues with
result `r`. -/
def execStepOut {P RA RB : Type} (w : Nat) (j : JobRef) (r : JoinOut P RA RB) :
    JoinOut P RA RB :=
  { r with pops := r.pops + 1, events := Event.poppedJob w :: r.events,
           ops := Op.pop (some j) :: Op.exec j :: r.ops }

/-- Shallow embedding of the drain loop of `join` (src/join.rs lines 36-59),
for the case in which closure A completed normally with value `va`.
`above` is the part of the local deque above job B (top first), `i` the
iteration counter used to consult the thief schedule. Each iteration first
evaluates the `while !job_b.latch.probe()` condition, then pops the deque:
a foreign reference is executed inline and the loop continues; B's own
reference is run inline and the pair returned; an empty pop means B was
stolen, so the owner waits on B's latch and breaks out to `into_result`. -/
def drain {P RA RB : Type} (sch : Sched) (w : Nat) (bRef : JobRef)
    (va : RA) (ob : Except P RB) : List JobRef → Nat → JoinOut P RA RB
  | [], i =>
    if schedLatch sch i then latchExitOut va ob
    else if bPresentAt sch i then foundBOut w bRef va ob
    else stolenOut w va ob
  | j :: rest, i =>
    if schedLatch sch i then latchExitOut va ob
    else if j = bRef then foundBOut w j va ob
    else execStepOut w j (drain sch w bRef va ob rest (i + 1))

/-- Embedding of `join_recover_from_panic` (src/join.rs lines 66-74): when
closure A panicked with payload `p`, the worker first waits until job B's
latch is set and only then resumes unwinding with A's payload. -/
def join_recover_from_panic {P RA RB : Type} (bRef : JobRef) (p : P) : JoinOut P RA RB :=
  { outcome := Except.error p, path := BPath.panicA, stolenBreak := false,
    pops := 0, latchEnd := true, events := [],
    ops := [Op.push bRef, Op.waitUntil] }

/-- Shallow embedding of `join` (src/join.rs lines 9-61) on a worker thread
with index `w`. Job B is wrapped and its reference pushed; closure A's
outcome `oper_a` is either a value (then the drain loop runs over the jobs
`above` B left on the deque plus B itself) or a panic payload (then
`join_recover_from_panic` waits for B's latch and re-raises). The `logging`
flag guards the `log!` event emissions and nothing else. -/
def join {P RA RB : Type} (logging : Bool) (sch : Sched) (w : Nat) (bRef : JobRef)
    (above : List JobRef) (oper_a : Except P RA) (oper_b : Except P RB) :
    JoinOut P RA RB :=
  match oper_a with
  | Except.error p =>
    let r := join_recover_from_panic bRef p
    { r with events := if logging then Event.joined w :: r.events else [] }
  | Except.ok va =>
    let d := drain sch w bRef va oper_b above 0
    { outcome := d.outcome, path := d.path, stolenBreak := d.stolenBreak,
      pops := d.pops, latchEnd := d.latchEnd,
      events := if logging then Event.joined w :: d.events else [],
      ops := Op.push bRef :: d.ops }

/-- Sequential reference semantics, written from the specification's words:
evaluate `a()` and then `b()` on one thread and pair the results; a panic
propagates and skips the rest. -/
def seqJoin {P RA RB : Type} (oper_a : Except P RA) (oper_b : Except P RB) :
    Except P (RA × RB) :=
  match oper_a with
  | Except.error p => Except.error p
  | Except.ok va => pairB va oper_b

/-- Outcome of a top-level `join` call: either the misuse failure (called
outside an active pool context; the calling operation aborts and no closure
runs) or a completed worker-context execution. -/
inductive TopOut (P RA RB : Type) where
  | misuse : TopOut P RA RB
  | ran : JoinOut P RA RB → TopOut P RA RB

/-- Modelled from the spec: `thread_pool::in_worker` (the pool's entry point
used at src/join.rs line 15) resolves the current worker thread; invoked
outside an active pool context it fails the calling operation immediately,
without executing either closure. `ctx` is `some w` when the caller is on
worker `w`, `none` otherwise. -/
def joinTop {P RA RB : Type} (ctx : Option Nat) (logging : Bool) (sch : Sched)
    (bRef : JobRef) (above : List JobRef) (oper_a : Except P RA)
    (oper_b : Except P RB) : TopOut P RA RB :=
  match ctx with
  | none => TopOut.misuse
  | some w => TopOut.ran (join logging sch w bRef above oper_a oper_b)

/-- Modelled from the spec: the Latch component has binary state
`unset → set`; `set` is the only mutating operation. The state is a `Bool`
(`true` = set). -/
inductive LatchOp where
  | set : LatchOp
deriving DecidableEq

/-- Modelled from the spec: applying one latch operation to a latch state.
`set` moves the state to set, from wherever it was. -/
def latchApply (_latchState : Bool) : LatchOp → Bool
  | LatchOp.set => true

/-- Modelled from the spec: the latch state after a sequence of operations. -/
def latchRun (s : Bool) (ops : List LatchOp) : Bool :=
  ops.foldl latchApply s

/-- Modelled from the spec: the non-blocking `probe()` of a latch simply
reads the state. -/
def latchProbe (s : Bool) : Bool := s

/-- Modelled from the spec: the operations available on a worker deque —
owner-side `push`/`pop` at one end, thief-side `steal` at the other. -/
inductive DqOp where
  | push : JobRef → DqOp
  | pop : DqOp
  | steal : DqOp
deriving DecidableEq

/-- Modelled from the spec: one atomic deque operation on the deque contents
(owner end at the head of the list). `push` prepends; `pop` removes the head
(most recently pushed, LIFO); `steal` removes the last element (least
recently pushed, FIFO for thieves). Returns the new contents and the removed
reference, if any. -/
def dqStep (items : List JobRef) : DqOp → List JobRef × Option JobRef
  | DqOp.push j => (j :: items, none)
  | DqOp.pop =>
    match items with
    | [] => ([], none)
    | j :: rest => (rest, some j)
  | DqOp.steal =>
    match items.reverse with
    | [] => (items, none)
    | j :: rest => (rest.reverse, some j)

/-- Modelled from the spec: running a linearized sequence of concurrent deque
operations; returns the final contents and the list of successfully removed
references, in removal order. -/
def dqRun : List JobRef → List DqOp → List JobRef × List JobRef
  | items, [] => (items, [])
  | items, op :: ops =>
    let st := dqStep items op
    let rest := dqRun st.1 ops
    (rest.1, (match st.2 with | some j => [j] | none => []) ++ rest.2)

/-- How many times a sequence of deque operations pushes the reference `x`. -/
def pushCount (ops : List DqOp) (x : JobRef) : Nat :=
  (ops.filter (fun o => decide (o = DqOp.push x))).length

/-- Modelled from the spec: `WorkerThread::wait_until(latch)` — while the
latch probe is false, the worker pops and executes its own local work, or
attempts a steal from a peer when local work is exhausted, re-polling the
probe between units of work; it returns only once the probe is true.
`setTime t` says whether whoever executes job B has set the latch by time
`t`; `fuel` bounds the number of polls (the real loop is unbounded), and
`none` means the fuel ran out before the latch was observed set. On success
the result carries the final probed latch state and the return time. -/
def waitUntilAux (setTime : Nat → Bool) :
    Nat → Bool → List JobRef → Nat → Option (Bool × Nat)
  | 0, _, _, _ => none
  | fuel + 1, latch, work, t =>
    if latch || setTime t then some (latch || setTime t, t)
    else
      match work with
      | _ :: restWork => waitUntilAux setTime fuel false restWork (t + 1)
      | [] => waitUntilAux setTime fuel false [] (t + 1)

/-- The shape of the drain loop's operation trace (src/join.rs lines 36-57):
either the latch probed true at the loop condition before any pop (empty
trace); or a pop returned B's own reference, which is run inline and the loop
returns at once; or a pop came back empty and the worker waits on B's latch
and exits the loop; or a pop returned a foreign reference, which is executed
inline before the loop continues. -/
inductive DrainTrace (bRef : JobRef) : List Op → Prop where
  | latchSet : DrainTrace bRef []
  | foundB : DrainTrace bRef [Op.pop (some bRef), Op.runInlineB]
  | stolen : DrainTrace bRef [Op.pop none, Op.waitUntil]
  | execStep (j : JobRef) (ops : List Op) : j ≠ bRef → DrainTrace bRef ops →
      DrainTrace bRef (Op.pop (some j) :: Op.exec j :: ops)

/-! Helper lemmas -/

/-- Every exit of the drain loop leaves B's latch set. -/
theorem drain_latchEnd_true {P RA RB : Type} (sch : Sched) (w : Nat) (bRef : JobRef)
    (va : RA) (ob : Except P RB) :
    ∀ (above : List JobRef) (i : Nat),
      (drain sch w bRef va ob above i).latchEnd = true := by
  intro above
  induction above with
  | nil =>
    intro i
    simp only [drain]
    split
    · rfl
    · split <;> rfl
  | cons j rest ih =>
    intro i
    simp only [drain]
    split
    · rfl
    · split
      · rfl
      · simp only [execStepOut]
        exact ih (i + 1)

/-- The drain loop yields B through `into_result` exactly when it never ran B
inline. -/
theorem drain_path_iff_no_inline {P RA RB : Type} (sch : Sched) (w : Nat) (bRef : JobRef)
    (va : RA) (ob : Except P RB) :
    ∀ (above : List JobRef) (i : Nat),
      ((drain sch w bRef va ob above i).path = BPath.intoResult ↔
        Op.runInlineB ∉ (drain sch w bRef va ob above i).ops) := by
  intro above
  induction above with
  | nil =>
    intro i
    simp only [drain]
    split
    · simp [latchExitOut]
    · split
      · simp [foundBOut]
      · simp [stolenOut]
  | cons j rest ih =>
    intro i
    simp only [drain]
    split
    · simp [latchExitOut]
    · split
      · simp [foundBOut]
      · simpa [execStepOut] using ih (i + 1)

/-- Leaving the drain loop through the empty-deque break means B's value is
retrieved through `into_result`. -/
theorem drain_stolen_into_result {P RA RB : Type} (sch : Sched) (w : Nat) (bRef : JobRef)
    (va : RA) (ob : Except P RB) :
    ∀ (above : List JobRef) (i : Nat),
      (drain sch w bRef va ob above i).stolenBreak = true →
        (drain sch w bRef va ob above i).path = BPath.intoResult := by
  intro above
  induction above with
  | nil =>
    intro i
    simp only [drain]
    split
    · intro _; rfl
    · split
      · simp [foundBOut]
      · intro _; rfl
  | cons j rest ih =>
    intro i
    simp only [drain]
    split
    · intro _; rfl
    · split
      · simp [foundBOut]
      · simpa [execStepOut] using ih (i + 1)

/-- The drain loop's operation trace always has the shape dictated by the
algorithm. -/
theorem drain_trace_shape {P RA RB : Type} (sch : Sched) (w : Nat) (bRef : JobRef)
    (va : RA) (ob : Except P RB) :
    ∀ (above : List JobRef) (i : Nat),
      DrainTrace bRef (drain sch w bRef va ob above i).ops := by
  intro above
  induction above with
  | nil =>
    intro i
    simp only [drain]
    split
    · exact DrainTrace.latchSet
    · split
      · exact DrainTrace.foundB
      · exact DrainTrace.stolen
  | cons j rest ih =>
    intro i
    simp only [drain]
    split
    · exact DrainTrace.latchSet
    · split
      · rename_i hj
        subst hj
        exact DrainTrace.foundB
      · rename_i hj
        exact DrainTrace.execStep j _ hj (ih (i + 1))

/-! Claim theorems -/

/-- C1: Fast-path equivalence — a `join(a, b)` call in which no other worker
ever steals job B (and the pure closures leave nothing above B on the deque)
returns exactly the same outcome as evaluating `a()` and then `b()`
sequentially on one thread. -/
theorem join_fast_path_equiv {P RA RB : Type} (logging : Bool) (w : Nat) (bRef : JobRef)
    (oper_a : Except P RA) (oper_b : Except P RB) :
    (join logging noStealSched w bRef [] oper_a oper_b).outcome = seqJoin oper_a oper_b := by
  cases oper_a <;>
    simp [join, seqJoin, drain, schedLatch, bPresentAt, noStealSched,
      join_recover_from_panic, latchExitOut, foundBOut, stolenOut]

/-- C2: Panic precedence — when closure A panics with payload `p`, `join`
first waits until job B's latch is set (B guaranteed complete) and then
re-raises A's payload; the entire result is independent of B's own outcome,
so B's result, or B's own panic payload, is discarded unobserved. -/
theorem join_panic_precedence {P RA RB : Type} (logging : Bool) (sch : Sched) (w : Nat)
    (bRef : JobRef) (above : List JobRef) (p : P) (oper_b oper_b' : Except P RB) :
    (@join P RA RB logging sch w bRef above (Except.error p) oper_b).outcome =
        Except.error p ∧
    (@join P RA RB logging sch w bRef above (Except.error p) oper_b).latchEnd = true ∧
    (@join P RA RB logging sch w bRef above (Except.error p) oper_b).ops =
        [Op.push bRef, Op.waitUntil] ∧
    @join P RA RB logging sch w bRef above (Except.error p) oper_b =
        @join P RA RB logging sch w bRef above (Except.error p) oper_b' :=
  ⟨rfl, rfl, rfl, rfl⟩

/-- C3: Drain-loop algorithm — when closure A completes normally, the
operations `join` performs after pushing B are exactly a drain-loop trace:
pops happen only while B's latch probe is false, a popped foreign reference
is executed inline before the loop continues, popping B's own reference runs
it inline and returns immediately, and an empty pop leads to `wait_until` on
B's latch and loop exit; moreover a true latch probe ends the loop with no
further operation. -/
theorem join_drain_loop_algorithm {P RA RB : Type} (logging : Bool) (sch : Sched)
    (w : Nat) (bRef : JobRef) (va : RA) (oper_b : Except P RB) (above : List JobRef)
    (i : Nat) :
    DrainTrace bRef (drain sch w bRef va oper_b above i).ops ∧
    (join logging sch w bRef above (Except.ok va) oper_b).ops =
      Op.push bRef :: (drain sch w bRef va oper_b above 0).ops ∧
    (schedLatch sch i = true →
      drain sch w bRef va oper_b above i = latchExitOut va oper_b) := by
  refine ⟨drain_trace_shape sch w bRef va oper_b above i, rfl, ?_⟩
  intro h
  cases above <;> simp [drain, h]

/-- Witness for C3 at a concrete input: one foreign job above B, never
stolen. -/
theorem join_drain_loop_algorithm_witness :
    DrainTrace 5 (drain { stealAt := none, setAt := none } 0 5 (1 : Nat)
      (Except.ok 2 : Except Nat Nat) [7] 0).ops ∧
    (join false { stealAt := none, setAt := none } 0 5 [7]
        (Except.ok 1 : Except Nat Nat) (Except.ok 2 : Except Nat Nat)).ops =
      Op.push 5 :: (drain { stealAt := none, setAt := none } 0 5 (1 : Nat)
        (Except.ok 2 : Except Nat Nat) [7] 0).ops ∧
    (schedLatch { stealAt := none, setAt := none } 0 = true →
      drain { stealAt := none, setAt := none } 0 5 (1 : Nat)
        (Except.ok 2 : Except Nat Nat) [7] 0 =
        latchExitOut 1 (Except.ok 2)) :=
  join_drain_loop_algorithm false { stealAt := none, setAt := none } 0 5 1
    (Except.ok 2) [7] 0

/-- C4 counterexample: the claim that `into_result` is used only on
executions leaving the drain loop via the Stolen branch is false — when B was
stolen and completed before the loop's first probe, the loop exits through
its condition (`stolenBreak = false`) and B's value is still retrieved via
`into_result`. -/
theorem into_result_only_after_stolen_break_cex :
    ¬ ∀ (sch : Sched) (above : List JobRef) (va vb : Nat),
        ((join false sch 0 5 above (Except.ok va)
            (Except.ok vb : Except Nat Nat)).path = BPath.intoResult →
          (join false sch 0 5 above (Except.ok va)
            (Except.ok vb : Except Nat Nat)).stolenBreak = true) := by
  intro h
  exact absurd (h { stealAt := some 0, setAt := some 0 } [] 1 2 (by decide)) (by decide)

/-- C4 (amended): `into_result` retrieves B's stored outcome exactly on the
executions in which the drain loop never runs B inline — leaving either
through the Stolen branch after `wait_until`, or through the loop condition
when B's latch already probes true — and on every execution B's latch is set
by the time `join` returns. -/
theorem into_result_iff_not_inline {P RA RB : Type} (logging : Bool) (sch : Sched)
    (w : Nat) (bRef : JobRef) (above : List JobRef) (va : RA) (oper_b : Except P RB) :
    ((join logging sch w bRef above (Except.ok va) oper_b).path = BPath.intoResult ↔
      Op.runInlineB ∉ (join logging sch w bRef above (Except.ok va) oper_b).ops) ∧
    (join logging sch w bRef above (Except.ok va) oper_b).latchEnd = true ∧
    ((join logging sch w bRef above (Except.ok va) oper_b).stolenBreak = true →
      (join logging sch w bRef above (Except.ok va) oper_b).path = BPath.intoResult) := by
  refine ⟨?_, ?_, ?_⟩
  · have hiff := drain_path_iff_no_inline sch w bRef va oper_b above 0
    simpa [join] using hiff
  · have hl := drain_latchEnd_true sch w bRef va oper_b above 0
    simpa [join] using hl
  · have hs := drain_stolen_into_result sch w bRef va oper_b above 0
    simpa [join] using hs

/-- Witness for the amended C4 at a concrete input: B stolen and completed
before the loop starts, so the result comes from `into_result` without a
Stolen-branch exit. -/
theorem into_result_iff_not_inline_witness :
    ((join false { stealAt := some 0, setAt := some 0 } 0 5 []
        (Except.ok 1 : Except Nat Nat) (Except.ok 2 : Except Nat Nat)).path =
          BPath.intoResult ↔
      Op.runInlineB ∉ (join false { stealAt := some 0, setAt := some 0 } 0 5 []
        (Except.ok 1 : Except Nat Nat) (Except.ok 2 : Except Nat Nat)).ops) ∧
    (join false { stealAt := some 0, setAt := some 0 } 0 5 []
        (Except.ok 1 : Except Nat Nat) (Except.ok 2 : Except Nat Nat)).latchEnd = true ∧
    ((join false { stealAt := some 0, setAt := some 0 } 0 5 []
        (Except.ok 1 : Except Nat Nat) (Except.ok 2 : Except Nat Nat)).stolenBreak = true →
      (join false { stealAt := some 0, setAt := some 0 } 0 5 []
        (Except.ok 1 : Except Nat Nat) (Except.ok 2 : Except Nat Nat)).path =
          BPath.intoResult) :=
  into_result_iff_not_inline false { stealAt := some 0, setAt := some 0 } 0 5 [] 1
    (Except.ok 2)

/-- C5: Misuse error — invoking `join` outside an active pool context fails
the calling operation immediately, and the failure is independent of both
closures: neither is executed, not even partially. -/
theorem joinTop_misuse_no_execution {P RA RB : Type} (logging : Bool) (sch : Sched)
    (bRef : JobRef) (above : List JobRef) (oper_a oper_a' : Except P RA)
    (oper_b oper_b' : Except P RB) :
    joinTop none logging sch bRef above oper_a oper_b = TopOut.misuse ∧
    joinTop none logging sch bRef above oper_a oper_b =
      joinTop none logging sch bRef above oper_a' oper_b' :=
  ⟨rfl, rfl⟩

/-- C6: wait_until postcondition — whenever `wait_until` returns, the probed
latch is true; consequently, on every `join` execution (including the
empty-deque branch guarded by the debug assertion, and the panic-recovery
path that resumes unwinding) B's latch is set when `join` finishes. -/
theorem wait_until_postcondition (setTime : Nat → Bool) (fuel : Nat) (latch : Bool)
    (work : List JobRef) (t : Nat) (b : Bool) (tr : Nat)
    (h : waitUntilAux setTime fuel latch work t = some (b, tr)) :
    b = true ∧
    ∀ (P RA RB : Type) (logging : Bool) (sch : Sched) (w : Nat) (bRef : JobRef)
      (above : List JobRef) (oper_a : Except P RA) (oper_b : Except P RB),
      (join logging sch w bRef above oper_a oper_b).latchEnd = true := by
  constructor
  · induction fuel generalizing latch work t with
    | zero => exact absurd h (by simp [waitUntilAux])
    | succ n ih =>
      simp only [waitUntilAux] at h
      by_cases hl : (latch || setTime t) = true
      · rw [if_pos hl] at h
        simp only [Option.some.injEq, Prod.mk.injEq] at h
        rw [← h.1]
        exact hl
      · rw [if_neg hl] at h
        cases work with
        | nil => exact ih false [] (t + 1) h
        | cons j restWork => exact ih false restWork (t + 1) h
  · intro P RA RB logging sch w bRef above oper_a oper_b
    cases oper_a with
    | error p => rfl
    | ok va =>
      have hl := drain_latchEnd_true sch w bRef va oper_b above 0
      simpa [join] using hl

/-- Witness for C6: a concrete `wait_until` run that returns at its first
poll with the latch observed set. -/
theorem wait_until_postcondition_witness :
    true = true ∧
    ∀ (P RA RB : Type) (logging : Bool) (sch : Sched) (w : Nat) (bRef : JobRef)
      (above : List JobRef) (oper_a : Except P RA) (oper_b : Except P RB),
      (join logging sch w bRef above oper_a oper_b).latchEnd = true :=
  wait_until_postcondition (fun _ => true) 1 false [] 0 true 0 rfl

/-- Conservation of pushed references on the deque: over any linearized
sequence of push/pop/steal operations, the number of successful removals of a
reference plus its remaining occurrences equals its initial occurrences plus
the number of times it was pushed. -/
theorem dqRun_count_conservation (x : JobRef) :
    ∀ (ops : List DqOp) (items : List JobRef),
      (dqRun items ops).2.count x + (dqRun items ops).1.count x =
        items.count x + pushCount ops x := by
  intro ops
  induction ops with
  | nil => intro items; simp [dqRun, pushCount]
  | cons op rest ih =>
    intro items
    cases op with
    | push j =>
      have := ih (j :: items)
      simp only [dqRun, dqStep, pushCount, List.filter_cons] at *
      by_cases hj : j = x
      · subst hj
        simp [List.count_cons] at *
        omega
      · simp [List.count_cons, hj, Ne.symm hj] at *
        omega
    | pop =>
      cases items with
      | nil =>
        have := ih []
        simp only [dqRun, dqStep, pushCount, List.filter_cons] at *
        simpa using this
      | cons j restItems =>
        have := ih restItems
        simp only [dqRun, dqStep, pushCount, List.filter_cons] at *
        by_cases hj : j = x
        · subst hj
          simp [List.count_cons] at *
          omega
        · simp [List.count_cons, hj, Ne.symm hj] at *
          omega
    | steal =>
      rcases hrev : items.reverse with _ | ⟨j, revRest⟩
      · have hitems : items = [] := by
          have := congrArg List.reverse hrev
          simpa using this
        subst hitems
        have := ih []
        simp only [dqRun, dqStep, pushCount, List.filter_cons, hrev] at *
        simpa using this
      · have hitems : items = revRest.reverse ++ [j] := by
          have := congrArg List.reverse hrev
          simpa using this
        have := ih revRest.reverse
        simp only [dqRun, dqStep, pushCount, List.filter_cons, hrev] at *
        subst hitems
        by_cases hj : j = x
        · subst hj
          simp [List.count_append, List.count_reverse, List.count_cons] at *
          omega
        · simp [List.count_append, List.count_reverse, List.count_cons, hj,
            Ne.symm hj] at *
          omega

/-- C7 counterexample: the claim that every pushed reference is removed by
exactly one caller, over all operation sequences, is false — a reference that
is pushed and never popped or stolen is removed by zero callers. -/
theorem deque_exactly_once_cex :
    ¬ ∀ (ops : List DqOp) (x : JobRef), pushCount ops x = 1 →
        (dqRun [] ops).2.count x = 1 := by
  intro h
  exact absurd (h [DqOp.push 5] 5 (by decide)) (by decide)

/-- C7 (amended): starting from an empty deque, a reference pushed exactly
once is removed by at most one caller; removals plus remaining occurrences
equal the pushes, so it is removed exactly once as soon as it has left the
deque (in particular whenever the deque is drained), and never twice. -/
theorem deque_exactly_once_delivery (ops : List DqOp) (x : JobRef)
    (h : pushCount ops x = 1) :
    (dqRun [] ops).2.count x + (dqRun [] ops).1.count x = pushCount ops x ∧
    (dqRun [] ops).2.count x ≤ 1 ∧
    ((dqRun [] ops).1.count x = 0 → (dqRun [] ops).2.count x = 1) := by
  have base := dqRun_count_conservation x ops []
  simp only [List.count_nil, Nat.zero_add] at base
  exact ⟨base, by omega, by omega⟩

/-- Witness for the amended C7: push then pop delivers the reference exactly
once to the owner. -/
theorem deque_exactly_once_delivery_witness :
    pushCount [DqOp.push 5, DqOp.pop] 5 = 1 ∧
    ((dqRun [] [DqOp.push 5, DqOp.pop]).2.count 5 +
        (dqRun [] [DqOp.push 5, DqOp.pop]).1.count 5 =
      pushCount [DqOp.push 5, DqOp.pop] 5 ∧
    (dqRun [] [DqOp.push 5, DqOp.pop]).2.count 5 ≤ 1 ∧
    ((dqRun [] [DqOp.push 5, DqOp.pop]).1.count 5 = 0 →
      (dqRun [] [DqOp.push 5, DqOp.pop]).2.count 5 = 1)) :=
  ⟨by decide, deque_exactly_once_delivery [DqOp.push 5, DqOp.pop] 5 (by decide)⟩

/-- C8: Latch monotonicity — once `probe()` reads true it reads true after
every further sequence of latch operations; a second `set` is safe and leaves
the state exactly where a single `set` does, namely set. -/
theorem latch_monotonic (s : Bool) (ops : List LatchOp) (h : latchProbe s = true) :
    latchProbe (latchRun s ops) = true ∧
    latchRun s [LatchOp.set, LatchOp.set] = latchRun s [LatchOp.set] ∧
    latchProbe (latchRun s [LatchOp.set]) = true := by
  refine ⟨?_, rfl, rfl⟩
  have hs : s = true := h
  subst hs
  induction ops with
  | nil => rfl
  | cons op rest ih =>
    cases op
    exact ih

/-- Witness for C8: starting from a set latch, a further `set` leaves it
set. -/
theorem latch_monotonic_witness :
    latchProbe (latchRun true [LatchOp.set]) = true ∧
    latchRun true [LatchOp.set, LatchOp.set] = latchRun true [LatchOp.set] ∧
    latchProbe (latchRun true [LatchOp.set]) = true :=
  latch_monotonic true [LatchOp.set] rfl

/-- C9: Instrumentation is inert — the returned outcome and the sequence of
push, pop, execute, run-inline and wait operations of a `join` call are
identical whether the log-event emissions are enabled or disabled; only the
emitted event list may differ. -/
theorem join_logging_inert {P RA RB : Type} (sch : Sched) (w : Nat) (bRef : JobRef)
    (above : List JobRef) (oper_a : Except P RA) (oper_b : Except P RB)
    (logging logging' : Bool) :
    (join logging sch w bRef above oper_a oper_b).outcome =
        (join logging' sch w bRef above oper_a oper_b).outcome ∧
    (join logging sch w bRef above oper_a oper_b).ops =
        (join logging' sch w bRef above oper_a oper_b).ops ∧
    (join logging sch w bRef above oper_a oper_b).path =
        (join logging' sch w bRef above oper_a oper_b).path ∧
    (join logging sch w bRef above oper_a oper_b).pops =
        (join logging' sch w bRef above oper_a oper_b).pops ∧
    (join logging sch w bRef above oper_a oper_b).stolenBreak =
        (join logging' sch w bRef above oper_a oper_b).stolenBreak ∧
    (join logging sch w bRef above oper_a oper_b).latchEnd =
        (join logging' sch w bRef above oper_a oper_b).latchEnd := by
  cases oper_a <;> exact ⟨rfl, rfl, rfl, rfl, rfl, rfl⟩

/-- C10: Implicit latch-set shortcut — when closure A completes normally and
B's latch already probes true at the first check of the drain loop, `join`
performs no pop at all and returns the pair with B's value taken from
`into_result`. -/
theorem join_latch_already_set {P RA RB : Type} (logging : Bool) (sch : Sched) (w : Nat)
    (bRef : JobRef) (above : List JobRef) (va : RA) (oper_b : Except P RB)
    (h : schedLatch sch 0 = true) :
    (join logging sch w bRef above (Except.ok va) oper_b).pops = 0 ∧
    (join logging sch w bRef above (Except.ok va) oper_b).outcome = pairB va oper_b ∧
    (join logging sch w bRef above (Except.ok va) oper_b).path = BPath.intoResult ∧
    (join logging sch w bRef above (Except.ok va) oper_b).ops = [Op.push bRef] := by
  cases above <;> simp [join, drain, h, latchExitOut]

/-- Witness for C10: B stolen and completed during A, before the drain loop
starts. -/
theorem join_latch_already_set_witness :
    schedLatch { stealAt := some 0, setAt := some 0 } 0 = true ∧
    ((join true { stealAt := some 0, setAt := some 0 } 3 5 [8]
        (Except.ok 1 : Except Nat Nat) (Except.ok 2 : Except Nat Nat)).pops = 0 ∧
    (join true { stealAt := some 0, setAt := some 0 } 3 5 [8]
        (Except.ok 1 : Except Nat Nat) (Except.ok 2 : Except Nat Nat)).outcome =
          pairB 1 (Except.ok 2) ∧
    (join true { stealAt := some 0, setAt := some 0 } 3 5 [8]
        (Except.ok 1 : Except Nat Nat) (Except.ok 2 : Except Nat Nat)).path =
          BPath.intoResult ∧
    (join true { stealAt := some 0, setAt := some 0 } 3 5 [8]
        (Except.ok 1 : Except Nat Nat) (Except.ok 2 : Except Nat Nat)).ops =
          [Op.push 5]) :=
  ⟨by decide, join_latch_already_set true { stealAt := some 0, setAt := some 0 } 3 5 [8]
    1 (Except.ok 2) (by decide)⟩

end Rayon
